import Mathlib

/-!
Shallow embedding of the scope-to-sow document renderer (src/server.js) and of
the validation schema of its generate_sow tool, together with proofs of the
specified properties.  JavaScript strings are modelled as lists of characters.
-/

/-- ECMAScript whitespace: the character set removed by String.prototype.trim
(WhiteSpace plus LineTerminator): TAB, LF, VT, FF, CR, SP, NBSP, Ogham space
mark, the Zs range U+2000..U+200A, LS, PS, NNBSP, MMSP, ideographic space and
ZWNBSP. -/
def isJsWs (c : Char) : Bool :=
  c.toNat == 0x9 || c.toNat == 0xA || c.toNat == 0xB || c.toNat == 0xC ||
  c.toNat == 0xD || c.toNat == 0x20 || c.toNat == 0xA0 || c.toNat == 0x1680 ||
  (decide (0x2000 ≤ c.toNat) && decide (c.toNat ≤ 0x200A)) ||
  c.toNat == 0x2028 || c.toNat == 0x2029 || c.toNat == 0x202F ||
  c.toNat == 0x205F || c.toNat == 0x3000 || c.toNat == 0xFEFF

/-- The character class of the regex [ \t]. -/
def isSpaceTab (c : Char) : Bool := c == ' ' || c == '\t'

/-- One pass of s.replace(slashRN-global, LF) from normalizeLines in
src/server.js: every CRLF pair is replaced by LF, scanning left to right
without rescanning replacements. -/
def replCRLF : List Char → List Char
  | [] => []
  | [c] => [c]
  | c :: d :: rest =>
    if c = '\r' ∧ d = '\n' then '\n' :: replCRLF rest
    else c :: replCRLF (d :: rest)

/-- s.replace of the regex, one or more spaces or tabs followed by LF, with LF:
drops every space or tab standing (through further spaces and tabs) directly
before a line feed. -/
def stripWsNl : List Char → List Char
  | [] => []
  | c :: rest =>
    if isSpaceTab c && (stripWsNl rest).head? == some '\n' then stripWsNl rest
    else c :: stripWsNl rest

/-- The trailing-whitespace half of String.prototype.trim. -/
def dropTrailingWs : List Char → List Char
  | [] => []
  | c :: rest =>
    if (dropTrailingWs rest).isEmpty && isJsWs c then []
    else c :: dropTrailingWs rest

/-- String.prototype.trim: drop ECMAScript whitespace at both ends. -/
def jsTrim (l : List Char) : List Char := dropTrailingWs (l.dropWhile isJsWs)

/-- normalizeLines from src/server.js: CRLF to LF, strip spaces and tabs before
each LF, then trim the whole string. -/
def normalizeLines (l : List Char) : List Char := jsTrim (stripWsNl (replCRLF l))

/-- String(x ?? "") for an optional field, then normalizeLines, as buildSowDoc
applies it to every free-text field. -/
def normOpt (o : Option (List Char)) : List Char := normalizeLines (o.getD [])

/-- JS String.prototype.split with separator LF. -/
def splitNl : List Char → List (List Char)
  | [] => [[]]
  | c :: rest =>
    if c = '\n' then [] :: splitNl rest
    else
      match splitNl rest with
      | [] => [[c]]
      | h :: t => (c :: h) :: t

/-- JS Array.prototype.join with a separator string. -/
def joinSep (sep : List Char) : List (List Char) → List Char
  | [] => []
  | x :: xs => x ++ (xs.map (fun y => sep ++ y)).flatten

/-- The character data of a string literal. -/
def str (s : String) : List Char := s.data

/-- One {heading, body} pair of a SowDocument. -/
structure SowSection where
  heading : List Char
  body : List Char
deriving DecidableEq

/-- The record returned by buildSowDoc. -/
structure SowDocument where
  title : List Char
  sections : List SowSection
  markdown : List Char
deriving DecidableEq

/-- The input record of buildSowDoc: every field may be absent; string fields
hold text, timeline_weeks holds the integer the validated tool call passes
through (the renderer itself never checks its range). -/
structure SowInput where
  project_name : Option (List Char) := none
  client : Option (List Char) := none
  goal : Option (List Char) := none
  deliverables : Option (List Char) := none
  timeline_weeks : Option Int := none
  constraints : Option (List Char) := none
deriving DecidableEq

/-- JS s || d on strings: the empty string is falsy. -/
def orDefault (s d : List Char) : List Char := if s = [] then d else s

/-- Section 1 body: the lines Client, Project and Goal, a null entry for an
empty client filtered out, joined with LF. -/
def overviewBody (client projectName goal : List Char) : List Char :=
  joinSep (str "\n")
    ((if client = [] then [] else [str "Client: " ++ client]) ++
     [str "Project: " ++ orDefault projectName (str "—"),
      str "Goal: " ++ orDefault goal (str "—")])

/-- Section 2 body: a bulleted list of the nonempty lines of deliverables, or
the literal fallback when deliverables is empty. -/
def scopeBody (deliverables : List Char) : List Char :=
  if deliverables = [] then str "Deliverables: —"
  else
    str "Deliverables (what will be produced):\n- " ++
      joinSep (str "\n- ") ((splitNl deliverables).filter (fun l => !l.isEmpty))

/-- Section 3 body, fixed boilerplate. -/
def outOfScopeBody : List Char :=
  str "Unless explicitly added in writing, the following are out of scope:\n- Ongoing maintenance / support beyond handoff\n- Work not described in the Deliverables section\n- Additional revision rounds beyond what is agreed"

/-- The fixed milestone list closing section 4. -/
def milestonesTail : List Char :=
  str "Suggested milestones:\n- Kickoff & requirements alignment\n- Draft / first delivery\n- Review & revisions\n- Final delivery & handoff"

/-- Decimal rendering of the timeline number. -/
def intStr (n : Int) : List Char := (toString n).data

/-- Section 4 body: the first line depends on the TRUTHINESS of
timeline_weeks (input.timeline_weeks ?? null), so both null and 0 take the
To-be-agreed branch. -/
def milestonesBody (tw : Option Int) : List Char :=
  (match tw with
   | none => str "Target timeline: To be agreed\n"
   | some n =>
     if n = 0 then str "Target timeline: To be agreed\n"
     else str "Target timeline: ~" ++ intStr n ++ str " week(s)\n") ++
  milestonesTail

/-- Section 5 body, fixed boilerplate. -/
def acceptanceBody : List Char :=
  str "- Deliverables match the written scope and agreed format\n- Final files/outputs provided and accessible\n- Review feedback incorporated within the agreed revision policy\n- Client sign-off provided in writing"

/-- Section 6 body, fixed boilerplate. -/
def assumptionsBody : List Char :=
  str "- Client provides required inputs (content, access, brand assets) on time\n- Single point of contact for approvals\n- Delays in feedback may shift timeline"

/-- Section 7 body, fixed boilerplate. -/
def risksBody : List Char :=
  str "- Scope expansion without change control\n- Delayed inputs/approvals\n- Conflicting stakeholder feedback"

/-- The title computed by buildSowDoc. -/
def sowTitle (i : SowInput) : List Char :=
  str "Statement of Work (SOW) — " ++ orDefault (normOpt i.project_name) (str "Project")

/-- The sections array of buildSowDoc: seven fixed pushes, plus the eighth
section exactly when the normalized constraints string is truthy. -/
def sowSections (i : SowInput) : List SowSection :=
  [⟨str "1. Overview",
    overviewBody (normOpt i.client) (normOpt i.project_name) (normOpt i.goal)⟩,
   ⟨str "2. Scope", scopeBody (normOpt i.deliverables)⟩,
   ⟨str "3. Out of Scope", outOfScopeBody⟩,
   ⟨str "4. Milestones", milestonesBody i.timeline_weeks⟩,
   ⟨str "5. Acceptance Criteria", acceptanceBody⟩,
   ⟨str "6. Assumptions & Dependencies", assumptionsBody⟩,
   ⟨str "7. Risks", risksBody⟩] ++
  (if normOpt i.constraints = [] then []
   else [⟨str "8. Constraints / Notes", normOpt i.constraints⟩])

/-- The markdown block of one section in the template literal. -/
def sectionBlock (s : SowSection) : List Char :=
  str "## " ++ s.heading ++ str "\n\n" ++ s.body ++ str "\n"

/-- The markdown template literal of buildSowDoc. -/
def sowMarkdown (i : SowInput) : List Char :=
  str "# " ++ sowTitle i ++ str "\n\n" ++
    joinSep (str "\n") ((sowSections i).map sectionBlock) ++ str "\n"

/-- buildSowDoc from src/server.js. -/
def buildSowDoc (i : SowInput) : SowDocument :=
  ⟨sowTitle i, sowSections i, sowMarkdown i⟩

/-- normalizeLines as written a second time in the copy of the server embedded
in src/PRIVACY.md (lines 60 to 65 of that file). -/
def normalizeLinesP (l : List Char) : List Char := jsTrim (stripWsNl (replCRLF l))

/-- The optional-field normalization of the PRIVACY.md copy. -/
def normOptP (o : Option (List Char)) : List Char := normalizeLinesP (o.getD [])

/-- buildSowDoc as written in the copy of the server embedded in
src/PRIVACY.md (lines 67 to 160 of that file), translated independently. -/
def buildSowDocP (i : SowInput) : SowDocument :=
  let projectName := normOptP i.project_name
  let client := normOptP i.client
  let goal := normOptP i.goal
  let deliverables := normOptP i.deliverables
  let timelineWeeks := i.timeline_weeks
  let constraints := normOptP i.constraints
  let title := str "Statement of Work (SOW) — " ++ orDefault projectName (str "Project")
  let sections : List SowSection :=
    [⟨str "1. Overview",
      joinSep (str "\n")
        ((if client = [] then [] else [str "Client: " ++ client]) ++
         [str "Project: " ++ orDefault projectName (str "—"),
          str "Goal: " ++ orDefault goal (str "—")])⟩,
     ⟨str "2. Scope",
      if deliverables = [] then str "Deliverables: —"
      else
        str "Deliverables (what will be produced):\n- " ++
          joinSep (str "\n- ") ((splitNl deliverables).filter (fun l => !l.isEmpty))⟩,
     ⟨str "3. Out of Scope",
      str "Unless explicitly added in writing, the following are out of scope:\n- Ongoing maintenance / support beyond handoff\n- Work not described in the Deliverables section\n- Additional revision rounds beyond what is agreed"⟩,
     ⟨str "4. Milestones",
      (match timelineWeeks with
       | none => str "Target timeline: To be agreed\n"
       | some n =>
         if n = 0 then str "Target timeline: To be agreed\n"
         else str "Target timeline: ~" ++ intStr n ++ str " week(s)\n") ++
      str "Suggested milestones:\n- Kickoff & requirements alignment\n- Draft / first delivery\n- Review & revisions\n- Final delivery & handoff"⟩,
     ⟨str "5. Acceptance Criteria",
      str "- Deliverables match the written scope and agreed format\n- Final files/outputs provided and accessible\n- Review feedback incorporated within the agreed revision policy\n- Client sign-off provided in writing"⟩,
     ⟨str "6. Assumptions & Dependencies",
      str "- Client provides required inputs (content, access, brand assets) on time\n- Single point of contact for approvals\n- Delays in feedback may shift timeline"⟩,
     ⟨str "7. Risks",
      str "- Scope expansion without change control\n- Delayed inputs/approvals\n- Conflicting stakeholder feedback"⟩] ++
    (if constraints = [] then []
     else [⟨str "8. Constraints / Notes", constraints⟩])
  let markdown :=
    str "# " ++ title ++ str "\n\n" ++
      joinSep (str "\n")
        (sections.map (fun s => str "## " ++ s.heading ++ str "\n\n" ++ s.body ++ str "\n")) ++
      str "\n"
  ⟨title, sections, markdown⟩

/-- The field names of the generate_sow input schema, for field-level
validation errors. -/
inductive SowField
  | project_name | client | goal | deliverables | timeline_weeks | constraints
deriving DecidableEq

/-- The raw arguments of a generate_sow call before validation; the timeline
arrives as an arbitrary JS number, modelled as a rational. -/
structure RawArgs where
  project_name : Option (List Char) := none
  client : Option (List Char) := none
  goal : Option (List Char) := none
  deliverables : Option (List Char) := none
  timeline_weeks : Option ℚ := none
  constraints : Option (List Char) := none
deriving DecidableEq

/-- zod z.string().min(1): the field is required and its raw length is at
least 1; content is not inspected. -/
def requiredStringOk : Option (List Char) → Bool
  | none => false
  | some l => decide (1 ≤ l.length)

/-- zod z.number().int().min(1).max(104).optional() from generateInputSchema
in src/server.js. -/
def timelineOk : Option ℚ → Bool
  | none => true
  | some q => q.den == 1 && decide (1 ≤ q) && decide (q ≤ 104)

/-- The offending fields of a generate_sow call under generateInputSchema;
client and constraints are optional strings and never offend here. -/
def validationErrors (a : RawArgs) : List SowField :=
  (if requiredStringOk a.project_name then [] else [SowField.project_name]) ++
  (if requiredStringOk a.goal then [] else [SowField.goal]) ++
  (if requiredStringOk a.deliverables then [] else [SowField.deliverables]) ++
  (if timelineOk a.timeline_weeks then [] else [SowField.timeline_weeks])

/-- The validated arguments as the renderer receives them; a validated
timeline is an integer, passed through as its numerator. -/
def validatedInput (a : RawArgs) : SowInput :=
  ⟨a.project_name, a.client, a.goal, a.deliverables,
   a.timeline_weeks.map Rat.num, a.constraints⟩

/-- Modelled from the spec: the generate_sow dispatch (section 4.3) validates
the call against generateInputSchema before anything else; on failure it
returns a ValidationError naming the offending fields and never invokes the
renderer, on success it invokes buildSowDoc on the validated record.  The
schema itself is src/server.js lines 182 to 189; the validate-then-invoke
sequencing lives in the protocol SDK outside this repository. -/
def generate_sow (a : RawArgs) : Except (List SowField) SowDocument :=
  if validationErrors a = [] then Except.ok (buildSowDoc (validatedInput a))
  else Except.error (validationErrors a)

/-! Helper lemmas about the normalization pipeline. -/

/-- The pairwise invariant established by stripWsNl: no space or tab stands
directly before a line feed. -/
def NoWsNl (l : List Char) : Prop :=
  l.Chain' (fun a b => ¬(isSpaceTab a = true ∧ b = '\n'))

theorem replCRLF_of_no_cr : ∀ {l : List Char}, '\r' ∉ l → replCRLF l = l
  | [], _ => rfl
  | [c], _ => rfl
  | c :: d :: rest, h => by
    have hc : c ≠ '\r' := fun e => h (by simp [e])
    have htl : '\r' ∉ d :: rest := fun m => h (List.mem_cons_of_mem _ m)
    have : ¬(c = '\r' ∧ d = '\n') := fun e => hc e.1
    simp only [replCRLF, if_neg this]
    exact congrArg (c :: ·) (replCRLF_of_no_cr htl)

theorem replCRLF_subset : ∀ (l : List Char), ∀ c ∈ replCRLF l, c ∈ l ∨ c = '\n'
  | [], _, hc => by simp [replCRLF] at hc
  | [a], c, hc => by
    simp [replCRLF] at hc
    exact Or.inl (by simp [hc])
  | a :: b :: rest, c, hc => by
    by_cases hab : a = '\r' ∧ b = '\n'
    · rw [replCRLF, if_pos hab] at hc
      rcases List.mem_cons.mp hc with rfl | hm
      · exact Or.inr rfl
      · rcases replCRLF_subset rest c hm with h | h
        · exact Or.inl (List.mem_cons_of_mem _ (List.mem_cons_of_mem _ h))
        · exact Or.inr h
    · rw [replCRLF, if_neg hab] at hc
      rcases List.mem_cons.mp hc with rfl | hm
      · exact Or.inl (List.mem_cons_self _ _)
      · rcases replCRLF_subset (b :: rest) c hm with h | h
        · exact Or.inl (List.mem_cons_of_mem _ h)
        · exact Or.inr h

theorem stripWsNl_sublist (l : List Char) : (stripWsNl l).Sublist l := by
  induction l with
  | nil => simp [stripWsNl]
  | cons c tl ih =>
    rw [stripWsNl]
    split
    · exact ih.trans (List.sublist_cons_self c tl)
    · exact List.cons_sublist_cons.mpr ih

theorem noWsNl_stripWsNl (l : List Char) : NoWsNl (stripWsNl l) := by
  induction l with
  | nil => simp [stripWsNl, NoWsNl]
  | cons c tl ih =>
    rw [stripWsNl]
    split
    · exact ih
    · rename_i hcond
      rw [NoWsNl, List.chain'_cons']
      refine ⟨?_, ih⟩
      intro b hb hcontra
      apply hcond
      rw [Option.mem_def] at hb
      rw [Bool.and_eq_true, beq_iff_eq]
      exact ⟨hcontra.1, by rw [hb, hcontra.2]⟩

theorem stripWsNl_of_noWsNl : ∀ {l : List Char}, NoWsNl l → stripWsNl l = l := by
  intro l h
  induction l with
  | nil => rfl
  | cons c tl ih =>
    rw [NoWsNl, List.chain'_cons'] at h
    have htl := ih h.2
    rw [stripWsNl, htl, if_neg]
    intro hcond
    rw [Bool.and_eq_true, beq_iff_eq] at hcond
    exact h.1 '\n' (by rw [Option.mem_def, hcond.2]) ⟨hcond.1, rfl⟩

theorem dropTrailingWs_prefix_self (l : List Char) : dropTrailingWs l <+: l := by
  induction l with
  | nil => exact List.prefix_refl []
  | cons c tl ih =>
    rw [dropTrailingWs]
    split
    · exact List.nil_prefix
    · obtain ⟨t, ht⟩ := ih
      exact ⟨t, by rw [List.cons_append, ht]⟩

theorem dropTrailingWs_idem (l : List Char) :
    dropTrailingWs (dropTrailingWs l) = dropTrailingWs l := by
  induction l with
  | nil => rfl
  | cons c tl ih =>
    rw [dropTrailingWs]
    split
    · rfl
    · rename_i h
      rw [dropTrailingWs, ih, if_neg h]

theorem jsTrim_infix_self (l : List Char) : jsTrim l <:+: l :=
  (dropTrailingWs_prefix_self _).isInfix.trans (List.dropWhile_suffix isJsWs).isInfix

theorem dropWhile_head_false (p : Char → Bool) :
    ∀ (l : List Char) (c : Char), (l.dropWhile p).head? = some c → p c = false := by
  intro l
  induction l with
  | nil => intro c hc; simp at hc
  | cons a tl ih =>
    intro c hc
    rw [List.dropWhile_cons] at hc
    split at hc
    · exact ih c hc
    · rename_i h
      have hac : a = c := by simpa using hc
      subst hac
      cases hpa : p a
      · rfl
      · exact absurd hpa h

theorem jsTrim_idem (l : List Char) : jsTrim (jsTrim l) = jsTrim l := by
  have h1 : (jsTrim l).dropWhile isJsWs = jsTrim l := by
    cases h : jsTrim l with
    | nil => rfl
    | cons c t =>
      have hd : (l.dropWhile isJsWs).head? = some c := by
        obtain ⟨u, hu⟩ := dropTrailingWs_prefix_self (l.dropWhile isJsWs)
        have hjt : dropTrailingWs (l.dropWhile isJsWs) = c :: t := h
        rw [← hu, hjt]
        rfl
      have hc : isJsWs c = false := dropWhile_head_false isJsWs l c hd
      rw [List.dropWhile_cons, hc]
      simp
  calc jsTrim (jsTrim l) = dropTrailingWs ((jsTrim l).dropWhile isJsWs) := rfl
    _ = dropTrailingWs (jsTrim l) := by rw [h1]
    _ = dropTrailingWs (dropTrailingWs (l.dropWhile isJsWs)) := rfl
    _ = dropTrailingWs (l.dropWhile isJsWs) := dropTrailingWs_idem _
    _ = jsTrim l := rfl

theorem noWsNl_jsTrim {l : List Char} (h : NoWsNl l) : NoWsNl (jsTrim l) :=
  List.Chain'.infix h (jsTrim_infix_self l)

theorem normalizeLines_eq_nil_of_ws {l : List Char} (h : ∀ c ∈ l, isJsWs c = true) :
    normalizeLines l = [] := by
  have h1 : ∀ c ∈ replCRLF l, isJsWs c = true := by
    intro c hc
    rcases replCRLF_subset l c hc with hm | rfl
    · exact h c hm
    · decide
  have h2 : ∀ c ∈ stripWsNl (replCRLF l), isJsWs c = true := fun c hc =>
    h1 c ((stripWsNl_sublist _).subset hc)
  have h3 : (stripWsNl (replCRLF l)).dropWhile isJsWs = [] :=
    List.dropWhile_eq_nil_iff.mpr h2
  rw [normalizeLines, jsTrim, h3]
  rfl

theorem normalizeLines_head_not_ws {s : List Char} {c : Char}
    (h : (normalizeLines s).head? = some c) : isJsWs c = false := by
  obtain ⟨u, hu⟩ := dropTrailingWs_prefix_self ((stripWsNl (replCRLF s)).dropWhile isJsWs)
  apply dropWhile_head_false isJsWs (stripWsNl (replCRLF s)) c
  rw [← hu]
  cases hnl : normalizeLines s with
  | nil => rw [hnl] at h; cases h
  | cons c0 t =>
    have heq : dropTrailingWs ((stripWsNl (replCRLF s)).dropWhile isJsWs) = c0 :: t := hnl
    rw [heq, List.cons_append]
    have hc0 : c0 = c := by rw [hnl] at h; simpa using h
    simp [hc0]

/-- C1 (counterexample): normalizeLines is NOT idempotent: on the string
a CR CR LF b, one application yields a CR LF b (the single global CRLF pass
leaves the fresh CR-LF pair behind and trim only touches the ends), and a
second application yields a LF b. -/
theorem normalizeLines_not_idempotent :
    normalizeLines (normalizeLines (str "a\r\r\nb")) ≠ normalizeLines (str "a\r\r\nb") := by
  decide

/-- C1 (amended): normalizing twice equals normalizing once for every string
that contains no carriage return; the unrestricted claim fails on strings such
as a CR CR LF b, where the single left-to-right CRLF replacement pass creates
a new interior CR-LF pair that only a second pass rewrites. -/
theorem normalizeLines_idempotent_of_no_cr (s : List Char) (h : '\r' ∉ s) :
    normalizeLines (normalizeLines s) = normalizeLines s := by
  have h0 : replCRLF s = s := replCRLF_of_no_cr h
  have hoeq : normalizeLines s = jsTrim (stripWsNl s) := by
    rw [normalizeLines, h0]
  have hsub : normalizeLines s ⊆ s := by
    rw [hoeq]
    intro a hm
    exact (stripWsNl_sublist s).subset ((jsTrim_infix_self _).sublist.subset hm)
  have hro : '\r' ∉ normalizeLines s := fun m => h (hsub m)
  have h1 : replCRLF (normalizeLines s) = normalizeLines s := replCRLF_of_no_cr hro
  have h2 : NoWsNl (normalizeLines s) := by
    rw [hoeq]
    exact noWsNl_jsTrim (noWsNl_stripWsNl s)
  have h3 : stripWsNl (normalizeLines s) = normalizeLines s := stripWsNl_of_noWsNl h2
  have h4 : jsTrim (normalizeLines s) = normalizeLines s := by
    rw [hoeq]
    exact jsTrim_idem _
  show jsTrim (stripWsNl (replCRLF (normalizeLines s))) = normalizeLines s
  rw [h1, h3, h4]

/-- C1 (witness): the amended idempotence applied at a concrete CR-free
input. -/
theorem normalizeLines_idempotent_witness :
    '\r' ∉ str "ab c" ∧
    normalizeLines (normalizeLines (str "ab c")) = normalizeLines (str "ab c") :=
  ⟨by decide, normalizeLines_idempotent_of_no_cr (str "ab c") (by decide)⟩

theorem sowSections_length (i : SowInput) :
    (sowSections i).length = if normOpt i.constraints = [] then 7 else 8 := by
  rw [sowSections]
  by_cases h : normOpt i.constraints = [] <;> simp [h]

theorem milestones_at_index_three (i : SowInput) :
    (buildSowDoc i).sections[3]? =
      some ⟨str "4. Milestones", milestonesBody i.timeline_weeks⟩ := by
  simp [buildSowDoc, sowSections]

/-- Modelled from the spec (section 3, markdown): an H1 of the title, each
section rendered as an H2 block of heading, blank line and body ending in a
line feed, the blocks joined with blank lines, and nothing after the blank
line that closes the last block. -/
def markdownSpec (title : List Char) (sections : List SowSection) : List Char :=
  str "# " ++ title ++ str "\n\n" ++
    joinSep (str "\n")
      (sections.map (fun s => str "## " ++ s.heading ++ str "\n\n" ++ s.body ++ str "\n")) ++
    str "\n"

/-- C2: for every input record, the markdown of the document equals the H1 of
the title followed by each section as an H2 block, joined with blank lines,
with no trailing content beyond the last block's closing blank line. -/
theorem markdown_assembly (i : SowInput) :
    (buildSowDoc i).markdown =
      markdownSpec (buildSowDoc i).title (buildSowDoc i).sections := rfl

/-- C3: the sections list has exactly 7 elements when the normalized
constraints field is empty and exactly 8 otherwise, the 8th being the
Constraints / Notes section carrying the normalized constraints verbatim. -/
theorem sections_count_invariant (i : SowInput) :
    (normOpt i.constraints = [] → (buildSowDoc i).sections.length = 7) ∧
    (normOpt i.constraints ≠ [] →
      (buildSowDoc i).sections.length = 8 ∧
      (buildSowDoc i).sections[7]? =
        some ⟨str "8. Constraints / Notes", normOpt i.constraints⟩) := by
  refine ⟨fun h => ?_, fun h => ⟨?_, ?_⟩⟩ <;> simp [buildSowDoc, sowSections, h]

/-- C3 (witness): the section count at a concrete record without and with
constraints. -/
theorem sections_count_witness :
    (buildSowDoc {}).sections.length = 7 ∧
    (buildSowDoc { constraints := some (str "Budget fixed") }).sections.length = 8 :=
  ⟨(sections_count_invariant {}).1 (by decide),
   ((sections_count_invariant { constraints := some (str "Budget fixed") }).2
      (by decide)).1⟩

/-- C6: the renderer is total on its stated precondition: for every input
whose timeline is absent or an integer in [1,104] it returns a SowDocument,
always of 7 or 8 sections; the Lean embedding of buildSowDoc is a total
function, so no internal error branch exists at all. -/
theorem buildSowDoc_total (i : SowInput)
    (h : i.timeline_weeks = none ∨
         ∃ n : Int, i.timeline_weeks = some n ∧ 1 ≤ n ∧ n ≤ 104) :
    ∃ d : SowDocument, buildSowDoc i = d ∧
      (d.sections.length = 7 ∨ d.sections.length = 8) := by
  refine ⟨buildSowDoc i, rfl, ?_⟩
  show (sowSections i).length = 7 ∨ (sowSections i).length = 8
  rw [sowSections_length]
  by_cases hc : normOpt i.constraints = [] <;> simp [hc]

/-- C6 (witness): totality applied at a concrete record with timeline 4. -/
theorem buildSowDoc_total_witness :
    ∃ d : SowDocument,
      buildSowDoc { timeline_weeks := some 4 } = d ∧
      (d.sections.length = 7 ∨ d.sections.length = 8) :=
  buildSowDoc_total { timeline_weeks := some 4 }
    (Or.inr ⟨4, rfl, by decide, by decide⟩)

/-- C7: rendering is deterministic and, being modelled as a pure function,
side-effect-free: identical inputs yield identical documents, markdown and
sections. -/
theorem buildSowDoc_deterministic (i j : SowInput) (h : i = j) :
    buildSowDoc i = buildSowDoc j ∧
    (buildSowDoc i).markdown = (buildSowDoc j).markdown ∧
    (buildSowDoc i).sections = (buildSowDoc j).sections := by
  subst h
  exact ⟨rfl, rfl, rfl⟩

/-- C7 (witness): determinism applied at a concrete record. -/
theorem buildSowDoc_deterministic_witness :
    buildSowDoc { project_name := some (str "Acme Site") } =
      buildSowDoc { project_name := some (str "Acme Site") } ∧
    (buildSowDoc { project_name := some (str "Acme Site") }).markdown =
      (buildSowDoc { project_name := some (str "Acme Site") }).markdown ∧
    (buildSowDoc { project_name := some (str "Acme Site") }).sections =
      (buildSowDoc { project_name := some (str "Acme Site") }).sections :=
  buildSowDoc_deterministic _ _ rfl

/-- C8: a timeline of the integer 0 reaches the falsy branch of the
truthiness test, so the Milestones body opens with the absent-timeline line
rather than a zero-week line. -/
theorem timeline_zero_renders_absent (i : SowInput) (h : i.timeline_weeks = some 0) :
    (buildSowDoc i).sections[3]? =
      some ⟨str "4. Milestones",
            str "Target timeline: To be agreed\n" ++ milestonesTail⟩ ∧
    (buildSowDoc i).sections[3]? ≠
      some ⟨str "4. Milestones",
            str "Target timeline: ~0 week(s)\n" ++ milestonesTail⟩ := by
  have h1 := milestones_at_index_three i
  rw [h] at h1
  have h2 : milestonesBody (some 0) =
      str "Target timeline: To be agreed\n" ++ milestonesTail := rfl
  rw [h2] at h1
  refine ⟨h1, ?_⟩
  rw [h1]
  intro he
  have hb : str "Target timeline: To be agreed\n" ++ milestonesTail =
      str "Target timeline: ~0 week(s)\n" ++ milestonesTail :=
    congrArg SowSection.body (Option.some.inj he)
  exact absurd hb (by decide)

/-- C8 (witness): the zero-timeline rendering at a concrete record. -/
theorem timeline_zero_witness :
    (buildSowDoc { timeline_weeks := some 0 }).sections[3]? =
      some ⟨str "4. Milestones",
            str "Target timeline: To be agreed\n" ++ milestonesTail⟩ ∧
    (buildSowDoc { timeline_weeks := some 0 }).sections[3]? ≠
      some ⟨str "4. Milestones",
            str "Target timeline: ~0 week(s)\n" ++ milestonesTail⟩ :=
  timeline_zero_renders_absent { timeline_weeks := some 0 } rfl

/-- C10: the renderer of src/server.js and the copy embedded in
src/PRIVACY.md are extensionally equal: identical title, sections and
markdown on every input record. -/
theorem privacy_copy_extensionally_equal (i : SowInput) :
    buildSowDocP i = buildSowDoc i ∧
    (buildSowDocP i).title = (buildSowDoc i).title ∧
    (buildSowDocP i).sections = (buildSowDoc i).sections ∧
    (buildSowDocP i).markdown = (buildSowDoc i).markdown :=
  ⟨rfl, rfl, rfl, rfl⟩

theorem splitNl_ne_nil (l : List Char) : splitNl l ≠ [] := by
  cases l with
  | nil => simp [splitNl]
  | cons c tl =>
    rw [splitNl]
    split
    · simp
    · cases hs : splitNl tl <;> simp

theorem splitNl_cons_ne (c : Char) (tl : List Char) (hc : c ≠ '\n') :
    ∃ h t, splitNl (c :: tl) = (c :: h) :: t := by
  rw [splitNl, if_neg hc]
  cases hs : splitNl tl with
  | nil => exact absurd hs (splitNl_ne_nil tl)
  | cons h t => exact ⟨h, t, rfl⟩

/-- Modelled from the spec (section 4.2 item 3): if deliverables is
non-empty, split it on line breaks, drop the empty lines, and render each
remaining line as one dash bullet under the fixed header sentence; otherwise
the literal em-dash fallback. -/
def scopeBodySpec (deliverables : List Char) : List Char :=
  if deliverables = [] then str "Deliverables: —"
  else
    str "Deliverables (what will be produced):" ++
      (((splitNl deliverables).filter (fun l => !l.isEmpty)).map
        (fun l => str "\n- " ++ l)).flatten

theorem scopeBody_eq_spec (d : List Char)
    (hd : ∀ c, d.head? = some c → isJsWs c = false) :
    scopeBody d = scopeBodySpec d := by
  cases d with
  | nil => rfl
  | cons c tl =>
    have hc : isJsWs c = false := hd c rfl
    have hcn : c ≠ '\n' := by
      intro e
      rw [e] at hc
      exact absurd hc (by decide)
    obtain ⟨h, t, hsplit⟩ := splitNl_cons_ne c tl hcn
    have hne : (c :: tl : List Char) ≠ [] := by simp
    rw [scopeBody, scopeBodySpec, if_neg hne, if_neg hne, hsplit]
    have hfil : ((c :: h) :: t).filter (fun l => !l.isEmpty) =
        (c :: h) :: t.filter (fun l => !l.isEmpty) := by simp
    rw [hfil, joinSep, List.map_cons, List.flatten_cons]
    have hsplitlit : str "Deliverables (what will be produced):\n- " =
        str "Deliverables (what will be produced):" ++ str "\n- " := by decide
    rw [hsplitlit]
    simp [List.append_assoc]

/-- C5: the Scope section body is the spec's bulleted rendering of the
normalized deliverables (blank lines dropped, no per-line trim) or the
em-dash fallback when empty; on the deliverables A LF B LF LF C the bullets
are exactly A, B, C. -/
theorem scope_section (i : SowInput) :
    (buildSowDoc i).sections[1]? =
      some ⟨str "2. Scope", scopeBodySpec (normOpt i.deliverables)⟩ ∧
    (i.deliverables = some (str "A\nB\n\nC") →
      (buildSowDoc i).sections[1]? =
        some ⟨str "2. Scope",
              str "Deliverables (what will be produced):\n- A\n- B\n- C"⟩) := by
  have hsec : (buildSowDoc i).sections[1]? =
      some ⟨str "2. Scope", scopeBody (normOpt i.deliverables)⟩ := by
    simp [buildSowDoc, sowSections]
  have heq : scopeBody (normOpt i.deliverables) =
      scopeBodySpec (normOpt i.deliverables) :=
    scopeBody_eq_spec _ (fun c hc => normalizeLines_head_not_ws hc)
  refine ⟨by rw [hsec, heq], fun h => ?_⟩
  rw [hsec, h]
  have hconc : scopeBody (normOpt (some (str "A\nB\n\nC"))) =
      str "Deliverables (what will be produced):\n- A\n- B\n- C" := by decide
  rw [hconc]

/-- C5 (witness): the concrete deliverables A LF B LF LF C yield exactly the
bullets A, B and C. -/
theorem scope_section_witness :
    (buildSowDoc { deliverables := some (str "A\nB\n\nC") }).sections[1]? =
      some ⟨str "2. Scope",
            str "Deliverables (what will be produced):\n- A\n- B\n- C"⟩ :=
  (scope_section { deliverables := some (str "A\nB\n\nC") }).2 rfl

theorem generate_sow_error_of_mem {a : RawArgs} {f : SowField}
    (hf : f ∈ validationErrors a) : ∃ e, generate_sow a = Except.error e := by
  rw [generate_sow, if_neg (List.ne_nil_of_mem hf)]
  exact ⟨_, rfl⟩

/-- C4: generate_sow fails with a field-specific validation error and never
invokes the renderer whenever project_name, goal or deliverables is missing
or empty, or timeline_weeks is non-integral or outside [1,104]; it accepts
every call whose required fields are present and non-empty and whose
timeline is absent or an integer between 1 and 104, client and constraints
being free to be missing. -/
theorem generate_sow_validation (a : RawArgs) :
    ((a.project_name = none ∨ a.project_name = some []) →
      SowField.project_name ∈ validationErrors a ∧
      ∃ e, generate_sow a = Except.error e) ∧
    ((a.goal = none ∨ a.goal = some []) →
      SowField.goal ∈ validationErrors a ∧
      ∃ e, generate_sow a = Except.error e) ∧
    ((a.deliverables = none ∨ a.deliverables = some []) →
      SowField.deliverables ∈ validationErrors a ∧
      ∃ e, generate_sow a = Except.error e) ∧
    (∀ q : ℚ, a.timeline_weeks = some q → (q.den ≠ 1 ∨ q < 1 ∨ 104 < q) →
      SowField.timeline_weeks ∈ validationErrors a ∧
      ∃ e, generate_sow a = Except.error e) ∧
    ((∃ lp, a.project_name = some lp ∧ lp ≠ []) →
     (∃ lg, a.goal = some lg ∧ lg ≠ []) →
     (∃ ld, a.deliverables = some ld ∧ ld ≠ []) →
     (a.timeline_weeks = none ∨
      ∃ q : ℚ, a.timeline_weeks = some q ∧ q.den = 1 ∧ 1 ≤ q ∧ q ≤ 104) →
      generate_sow a = Except.ok (buildSowDoc (validatedInput a))) := by
  refine ⟨?_, ?_, ?_, ?_, ?_⟩
  · intro h
    have hok : requiredStringOk a.project_name = false := by
      rcases h with h | h <;> simp [requiredStringOk, h]
    have hmem : SowField.project_name ∈ validationErrors a := by
      simp [validationErrors, hok]
    exact ⟨hmem, generate_sow_error_of_mem hmem⟩
  · intro h
    have hok : requiredStringOk a.goal = false := by
      rcases h with h | h <;> simp [requiredStringOk, h]
    have hmem : SowField.goal ∈ validationErrors a := by
      simp [validationErrors, hok]
    exact ⟨hmem, generate_sow_error_of_mem hmem⟩
  · intro h
    have hok : requiredStringOk a.deliverables = false := by
      rcases h with h | h <;> simp [requiredStringOk, h]
    have hmem : SowField.deliverables ∈ validationErrors a := by
      simp [validationErrors, hok]
    exact ⟨hmem, generate_sow_error_of_mem hmem⟩
  · intro q hq hbad
    have hok : timelineOk a.timeline_weeks = false := by
      rw [hq, timelineOk]
      rcases hbad with h | h | h
      · have h1 : (q.den == 1) = false := by simp [h]
        simp [h1]
      · have h1 : decide (1 ≤ q) = false := by simpa using not_le.mpr h
        simp [h1]
      · have h1 : decide (q ≤ 104) = false := by simpa using not_le.mpr h
        simp [h1]
    have hmem : SowField.timeline_weeks ∈ validationErrors a := by
      simp [validationErrors, hok]
    exact ⟨hmem, generate_sow_error_of_mem hmem⟩
  · rintro ⟨lp, hlp, hlpne⟩ ⟨lg, hlg, hlgne⟩ ⟨ld, hld, hldne⟩ htw
    have h1 : requiredStringOk a.project_name = true := by
      have hpos : 0 < lp.length := List.length_pos.mpr hlpne
      rw [hlp, requiredStringOk, decide_eq_true_iff]
      omega
    have h2 : requiredStringOk a.goal = true := by
      have hpos : 0 < lg.length := List.length_pos.mpr hlgne
      rw [hlg, requiredStringOk, decide_eq_true_iff]
      omega
    have h3 : requiredStringOk a.deliverables = true := by
      have hpos : 0 < ld.length := List.length_pos.mpr hldne
      rw [hld, requiredStringOk, decide_eq_true_iff]
      omega
    have h4 : timelineOk a.timeline_weeks = true := by
      rcases htw with h | ⟨q, hq, hden, h1q, hq104⟩
      · rw [h]; rfl
      · rw [hq, timelineOk]
        simp [hden, h1q, hq104]
    have hve : validationErrors a = [] := by
      simp [validationErrors, h1, h2, h3, h4]
    rw [generate_sow, if_pos hve]

/-- C4 (witness): a missing project_name is rejected with its field named;
timeline values 0, 105 and 7/2 are rejected with the timeline field named;
timelines 1 and 104 with all required fields present and client and
constraints missing are accepted. -/
theorem generate_sow_validation_witness :
    (SowField.project_name ∈ validationErrors
       { goal := some (str "G"), deliverables := some (str "D") } ∧
     ∃ e, generate_sow { goal := some (str "G"), deliverables := some (str "D") } =
       Except.error e) ∧
    (SowField.timeline_weeks ∈ validationErrors
       { project_name := some (str "P"), goal := some (str "G"),
         deliverables := some (str "D"), timeline_weeks := some 0 } ∧
     ∃ e, generate_sow
       { project_name := some (str "P"), goal := some (str "G"),
         deliverables := some (str "D"), timeline_weeks := some 0 } =
       Except.error e) ∧
    (SowField.timeline_weeks ∈ validationErrors
       { project_name := some (str "P"), goal := some (str "G"),
         deliverables := some (str "D"), timeline_weeks := some 105 } ∧
     ∃ e, generate_sow
       { project_name := some (str "P"), goal := some (str "G"),
         deliverables := some (str "D"), timeline_weeks := some 105 } =
       Except.error e) ∧
    (SowField.timeline_weeks ∈ validationErrors
       { project_name := some (str "P"), goal := some (str "G"),
         deliverables := some (str "D"), timeline_weeks := some (mkRat 7 2) } ∧
     ∃ e, generate_sow
       { project_name := some (str "P"), goal := some (str "G"),
         deliverables := some (str "D"), timeline_weeks := some (mkRat 7 2) } =
       Except.error e) ∧
    generate_sow
      { project_name := some (str "P"), goal := some (str "G"),
        deliverables := some (str "D"), timeline_weeks := some 1 } =
      Except.ok (buildSowDoc (validatedInput
        { project_name := some (str "P"), goal := some (str "G"),
          deliverables := some (str "D"), timeline_weeks := some 1 })) ∧
    generate_sow
      { project_name := some (str "P"), goal := some (str "G"),
        deliverables := some (str "D"), timeline_weeks := some 104 } =
      Except.ok (buildSowDoc (validatedInput
        { project_name := some (str "P"), goal := some (str "G"),
          deliverables := some (str "D"), timeline_weeks := some 104 })) :=
  ⟨(generate_sow_validation _).1 (Or.inl rfl),
   (generate_sow_validation _).2.2.2.1 0 rfl (Or.inr (Or.inl (by decide))),
   (generate_sow_validation _).2.2.2.1 105 rfl (Or.inr (Or.inr (by decide))),
   (generate_sow_validation _).2.2.2.1 (mkRat 7 2) rfl (Or.inl (by decide)),
   (generate_sow_validation _).2.2.2.2
     ⟨str "P", rfl, by decide⟩ ⟨str "G", rfl, by decide⟩ ⟨str "D", rfl, by decide⟩
     (Or.inr ⟨1, rfl, by decide, by decide, by decide⟩),
   (generate_sow_validation _).2.2.2.2
     ⟨str "P", rfl, by decide⟩ ⟨str "G", rfl, by decide⟩ ⟨str "D", rfl, by decide⟩
     (Or.inr ⟨104, rfl, by decide, by decide, by decide⟩)⟩

/-- C9: validation checks only raw length, so whitespace-only required fields
pass and reach the renderer, which normalizes them to empty: a whitespace-only
project_name yields the fallback title and a whitespace-only deliverables
yields the em-dash Scope body, although validation accepted both as
non-empty. -/
theorem whitespace_only_passes (p g d : List Char)
    (hp : p ≠ []) (hg : g ≠ []) (hd : d ≠ [])
    (hwp : ∀ c ∈ p, isJsWs c = true) (hwd : ∀ c ∈ d, isJsWs c = true) :
    validationErrors ⟨some p, none, some g, some d, none, none⟩ = [] ∧
    generate_sow ⟨some p, none, some g, some d, none, none⟩ =
      Except.ok (buildSowDoc ⟨some p, none, some g, some d, none, none⟩) ∧
    (buildSowDoc ⟨some p, none, some g, some d, none, none⟩).title =
      str "Statement of Work (SOW) — Project" ∧
    (buildSowDoc ⟨some p, none, some g, some d, none, none⟩).sections[1]? =
      some ⟨str "2. Scope", str "Deliverables: —"⟩ := by
  have hnp : normOpt (some p) = [] := normalizeLines_eq_nil_of_ws hwp
  have hnd : normOpt (some d) = [] := normalizeLines_eq_nil_of_ws hwd
  have h1 : requiredStringOk (some p) = true := by
    have hpos : 0 < p.length := List.length_pos.mpr hp
    rw [requiredStringOk, decide_eq_true_iff]
    omega
  have h2 : requiredStringOk (some g) = true := by
    have hpos : 0 < g.length := List.length_pos.mpr hg
    rw [requiredStringOk, decide_eq_true_iff]
    omega
  have h3 : requiredStringOk (some d) = true := by
    have hpos : 0 < d.length := List.length_pos.mpr hd
    rw [requiredStringOk, decide_eq_true_iff]
    omega
  have hve : validationErrors ⟨some p, none, some g, some d, none, none⟩ = [] := by
    simp [validationErrors, h1, h2, h3, timelineOk]
  refine ⟨hve, ?_, ?_, ?_⟩
  · rw [generate_sow, if_pos hve]
    rfl
  · show str "Statement of Work (SOW) — " ++
        orDefault (normOpt (some p)) (str "Project") = _
    rw [hnp]
    decide
  · have hsec : (buildSowDoc ⟨some p, none, some g, some d, none, none⟩).sections[1]? =
        some ⟨str "2. Scope", scopeBody (normOpt (some d))⟩ := by
      simp [buildSowDoc, sowSections]
    rw [hsec, hnd]
    rfl

/-- C9 (witness): a single-space project_name and a space-tab deliverables
pass validation and render the fallback title and em-dash Scope body. -/
theorem whitespace_only_witness :
    validationErrors ⟨some (str " "), none, some (str "g"), some (str " \t"), none, none⟩ = [] ∧
    generate_sow ⟨some (str " "), none, some (str "g"), some (str " \t"), none, none⟩ =
      Except.ok (buildSowDoc ⟨some (str " "), none, some (str "g"), some (str " \t"), none, none⟩) ∧
    (buildSowDoc ⟨some (str " "), none, some (str "g"), some (str " \t"), none, none⟩).title =
      str "Statement of Work (SOW) — Project" ∧
    (buildSowDoc ⟨some (str " "), none, some (str "g"), some (str " \t"), none, none⟩).sections[1]? =
      some ⟨str "2. Scope", str "Deliverables: —"⟩ :=
  whitespace_only_passes (str " ") (str "g") (str " \t")
    (by decide) (by decide) (by decide) (by decide) (by decide)

